import Mathlib

/-!
Shallow embedding of the JazzyScroll viewport-animation engine
(`JazzyScroll` constructor, `animateIn`, `addElement`, `isInViewport`,
`init` polling pass, the MutationObserver callback, and `animateNumber`)
together with theorems settling the specification claims.
-/

namespace Jazzy

/-- Model of the JavaScript `parseInt` applied to a string: skip leading
whitespace, optional sign, then a maximal run of decimal digits; `none`
models the `NaN` result when no digits are found. -/
def parseIntJS (s : String) : Option Int :=
  let cs := s.toList.dropWhile (fun c => c.isWhitespace)
  let signed : Bool × List Char :=
    match cs with
    | '-' :: rest => (true, rest)
    | '+' :: rest => (false, rest)
    | _ => (false, cs)
  let ds := signed.2.takeWhile (fun c => c.isDigit)
  if ds.isEmpty then none
  else
    let n : Nat := ds.foldl (fun acc c => acc * 10 + (c.toNat - 48)) 0
    some (if signed.1 then -(n : Int) else (n : Int))

/-- Whether `sub` occurs as a contiguous substring starting at the head of `l`. -/
def listStartsWith : List Char → List Char → Bool
  | [], _ => true
  | _ :: _, [] => false
  | a :: as, b :: bs => a == b && listStartsWith as bs

/-- Whether `sub` occurs as a contiguous substring anywhere in `l`. -/
def listHasSub (sub : List Char) : List Char → Bool
  | [] => listStartsWith sub []
  | c :: cs => listStartsWith sub (c :: cs) || listHasSub sub cs

/-- Model of the JavaScript `String.prototype.includes`: `strIncludes s sub`
is `true` when `sub` occurs as a substring of `s`. -/
def strIncludes (s sub : String) : Bool :=
  listHasSub sub.toList s.toList

/-- Model of the JavaScript idiom `getAttribute(..) || dflt` on a string
attribute: a missing attribute (`none`, i.e. `null`) and an empty string are
both falsy and yield the default. -/
def orDefaultStr (a : Option String) (dflt : String) : String :=
  match a with
  | some s => if s = "" then dflt else s
  | none => dflt

/-- Model of the JavaScript idiom `value || dflt` on a numeric config field
that may be absent: `none` models an unset field, and a present `0` is falsy,
so both fall back to the default. -/
def jsOrDefault (v : Option Int) (d : Int) : Int :=
  match v with
  | none => d
  | some x => if x = 0 then d else x

/-- The recognized fields of the `settings` object passed to the `JazzyScroll`
constructor; `none` models an absent field. -/
structure Settings where
  speed : Option Int
  delay : Option Int
  offset : Option Int

/-- The instance-level configuration state (`this.speed`, `this.delay`,
`this.offset`) after the `JazzyScroll` constructor has run its default-merge
and its mobile check. -/
structure Engine where
  speed : Int
  delay : Int
  offset : Int
deriving DecidableEq

/-- The configuration part of the `JazzyScroll` constructor:
`this.speed = settings.speed || 500`, `this.delay = settings.delay || 0`,
`this.offset = settings.offset || 0`, followed by
`if (typeof window.orientation !== 'undefined') this.offset = 0`.
`hasOrientation` models whether `window.orientation` is defined. -/
def mkJazzyScroll (s : Settings) (hasOrientation : Bool) : Engine :=
  let sp := jsOrDefault s.speed 500
  let dl := jsOrDefault s.delay 0
  let off := jsOrDefault s.offset 0
  { speed := sp, delay := dl, offset := if hasOrientation then 0 else off }

/-- The per-element offset resolution in `addElement`:
`parseInt(element.getAttribute('data-jazzy-scroll-offset') ? attr : this.offset)`.
A truthy (present, non-empty) attribute string is parsed; otherwise the
engine-level offset number is passed through `parseInt`, which returns it
unchanged. `none` models a `NaN` result. -/
def resolveOffset (engineOffset : Int) (offsetAttr : Option String) : Option Int :=
  match offsetAttr with
  | some s => if s = "" then some engineOffset else parseIntJS s
  | none => some engineOffset

/-- The attributes of a tracked element that `animateIn` and `addElement`
read. A tracked element always carries the `data-jazzy-scroll` attribute
(that is the eligibility predicate), so `jazzyScroll` is its string value;
the companion attributes are optional. -/
structure JAttrs where
  jazzyScroll : String
  countStart : Option String
  countEnd : Option String
  speedAttr : Option String
  offsetAttr : Option String
  textContent : String
deriving DecidableEq

/-- The arguments of a call `animateNumber(element, start, end, duration)`
recorded when `animateIn` invokes the numeric ramp. -/
structure RampCall where
  start : Int
  endv : Int
  duration : Int
deriving DecidableEq

/-- Model of `this.animateIn`: if the `data-jazzy-scroll` value includes
`'count'`, parse `data-jazzy-scroll-count-start || 0` and
`data-jazzy-scroll-count-end || textContent`; when both parse (neither is
`NaN`) call `animateNumber(element, start, end, this.speed)`. In every case
the class `animated-in` is added. Returns the recorded ramp call (if any)
and whether the class was added. -/
def animateIn (engineSpeed : Int) (e : JAttrs) : Option RampCall × Bool :=
  if strIncludes e.jazzyScroll "count" then
    let startNumber := parseIntJS (orDefaultStr e.countStart "0")
    let endNumber := parseIntJS (orDefaultStr e.countEnd e.textContent)
    match startNumber, endNumber with
    | some s, some en => (some ⟨s, en, engineSpeed⟩, true)
    | _, _ => (none, true)
  else
    (none, true)

/-- The per-element speed resolution in `addElement`, line for line:
`element.jazzySpeed = (element.getAttribute('data-jazzy-scroll-speed') ?
attr : this.speed) + 'ms'`. -/
def jazzySpeedStr (engineSpeed : Int) (e : JAttrs) : String :=
  orDefaultStr e.speedAttr (toString engineSpeed) ++ "ms"

/-- A second definition following the specification words, for comparison
with `animateIn`: "the element's resolved per-element transition speed (the
element-level speed override when present, otherwise the engine default)",
as a number of milliseconds. -/
def resolvedSpeedSpec (engineSpeed : Int) (e : JAttrs) : Int :=
  match e.speedAttr with
  | some s => if s = "" then engineSpeed else (parseIntJS s).getD engineSpeed
  | none => engineSpeed

/-! ### Numeric ramp animator (`animateNumber`) -/

/-- The progress value computed on each frame of `animateNumber`:
`Math.min((timestamp - startTimestamp) / duration, 1)`, with elapsed time and
duration as exact rationals. -/
def progressAt (duration elapsed : ℚ) : ℚ :=
  min (elapsed / duration) 1

/-- The integer written to `element.textContent` on a frame of
`animateNumber`: `Math.floor(progress * (end - start) + start)`. -/
def rampValue (start endv : Int) (duration elapsed : ℚ) : Int :=
  ⌊progressAt duration elapsed * ((endv : ℚ) - (start : ℚ)) + (start : ℚ)⌋

/-- Whether a frame of `animateNumber` schedules a further frame:
`if (progress < 1) window.requestAnimationFrame(step)`. -/
def schedulesNext (duration elapsed : ℚ) : Bool :=
  decide (progressAt duration elapsed < 1)

/-! ### Polling strategy (`addElement`, `isInViewport`, `init`) -/

/-- A tracked element as the polling strategy sees it: an identity (distinct
DOM nodes get distinct ids; the same node re-registered keeps its id), its
`getBoundingClientRect().top`, and its resolved `jazzyOffset`. -/
structure PollElem where
  id : Nat
  rectTop : Int
  jazzyOffset : Int
deriving DecidableEq

/-- Model of `this.isInViewport`:
`element.getBoundingClientRect().top + element.jazzyOffset <= viewportBottom`. -/
def isInViewport (viewportBottom : Int) (e : PollElem) : Bool :=
  e.rectTop + e.jazzyOffset ≤ viewportBottom

/-- The outcome of one evaluation pass of `this.init`: the collection after
the pass, the elements evaluated by `isInViewport` (in evaluation order), and
the elements passed to `animateIn` (in invocation order). -/
structure PassResult where
  remaining : List PollElem
  evaluated : List PollElem
  activated : List PollElem
deriving DecidableEq

/-- The body of the `init` loop from index `i` down to `0`:
`let element = arr[i]; if (isInViewport(element)) { animateIn(element);
arr.splice(i, 1) }`, then `i--`. Recorded are the evaluated elements and the
`animateIn` invocations. -/
def pollPassAux (H : Int) : Nat → List PollElem → PassResult
  | 0, arr =>
    match arr[0]? with
    | none => ⟨arr, [], []⟩
    | some e =>
      ⟨if isInViewport H e then arr.eraseIdx 0 else arr, [e],
        if isInViewport H e then [e] else []⟩
  | Nat.succ j, arr =>
    match arr[j + 1]? with
    | none => ⟨arr, [], []⟩
    | some e =>
      let arr' := if isInViewport H e then arr.eraseIdx (j + 1) else arr
      let r := pollPassAux H j arr'
      ⟨r.remaining, e :: r.evaluated,
        (if isInViewport H e then [e] else []) ++ r.activated⟩

/-- One full evaluation pass of `this.init`:
`for (let i = arr.length - 1; i >= 0; i--) ...`. On an empty collection the
loop body never runs. -/
def pollPass (H : Int) (arr : List PollElem) : PassResult :=
  pollPassAux H (arr.length - 1) arr

/-! ### Mutation watcher (the `MutationObserver` callback) -/

/-- A DOM node as the mutation watcher sees it: its identity, whether its
`nodeType` is `Node.ELEMENT_NODE`, whether it carries the `data-jazzy-scroll`
attribute, whether it has the `animated-in` class, and its children in
document order. -/
inductive DNode : Type where
  | node (id : Nat) (isElement : Bool) (eligible : Bool) (animatedIn : Bool)
      (children : List DNode)

def DNode.id : DNode → Nat
  | .node i _ _ _ _ => i

def DNode.isElement : DNode → Bool
  | .node _ el _ _ _ => el

/-- The selector `[data-jazzy-scroll]:not(.animated-in)` applied to a node
(meaningful on element nodes). -/
def jmatches : DNode → Bool
  | .node _ el eg an _ => el && eg && !an

mutual

/-- All nodes of a subtree in document order, the root first. -/
def DNode.subtree : DNode → List DNode
  | .node i el eg an cs => .node i el eg an cs :: subtreeList cs

def subtreeList : List DNode → List DNode
  | [] => []
  | c :: cs => c.subtree ++ subtreeList cs

end

/-- The proper descendants of a node in document order: the nodes
`querySelectorAll` searches. -/
def DNode.descendants : DNode → List DNode
  | .node _ _ _ _ cs => subtreeList cs

/-- The registrations produced for one entry of `addedNodes`: if its
`nodeType` is `ELEMENT_NODE`, register it when it matches
`[data-jazzy-scroll]:not(.animated-in)`, then register every
`querySelectorAll` match among its descendants. -/
def processAddedNode (n : DNode) : List DNode :=
  if n.isElement then
    (if jmatches n then [n] else []) ++ n.descendants.filter jmatches
  else
    []

/-- The `MutationObserver` callback over a batch: for each mutation record,
for each added node, produce its registrations; each registration is an
`addElement` call, in order. -/
def processBatch (muts : List (List DNode)) : List DNode :=
  muts.flatMap (fun addedNodes => addedNodes.flatMap processAddedNode)

/-- The polling-strategy `addElement` tail: `this.jazzyElements.push(element)`. -/
def addElementPoll (arr : List PollElem) (e : PollElem) : List PollElem :=
  arr ++ [e]

/-- Feeding a batch of mutations into the polling strategy: every node the
watcher callback registers goes through `addElement`, which pushes the
corresponding tracked element (`elemOfId` maps node identity to its tracked
element). -/
def registerAdded (elemOfId : Nat → PollElem) (muts : List (List DNode))
    (arr : List PollElem) : List PollElem :=
  (processBatch muts).foldl (fun acc n => addElementPoll acc (elemOfId n.id)) arr

/-! ### Observer strategy (`addElement` with `IntersectionObserver`) -/

/-- A tracked element as the observer-strategy `addElement` sees it. -/
structure ObsElem where
  id : Nat
  offsetAttr : Option String
deriving DecidableEq

/-- The `rootMargin` string `'0px 0px ' + (offset * -1) + 'px 0px'` built
from a resolved `jazzyOffset`; a `NaN` offset renders as `'NaN'`. -/
def rootMarginOf (off : Option Int) : String :=
  "0px 0px " ++ (match off with | some n => toString (n * -1) | none => "NaN") ++ "px 0px"

/-- The observer-strategy state: the engine's single shared `this.options`
object, represented by its current `rootMargin` (every element's
`element.options` field aliases this one object), and the list of
constructed `IntersectionObserver`s, each with the `rootMargin` it captured
at construction. -/
structure ObsState where
  sharedRootMargin : String
  observers : List (Nat × String)
deriving DecidableEq

/-- Model of the observer-strategy `addElement`: resolve `jazzyOffset`, set
`element.options = this.options` (aliasing the shared object), overwrite
`element.options.rootMargin` in place (mutating the shared object), then
construct a dedicated `IntersectionObserver` with the options as they stand
at that moment. -/
def addElementObs (engineOffset : Int) (st : ObsState) (e : ObsElem) : ObsState :=
  let off := resolveOffset engineOffset e.offsetAttr
  let m := rootMarginOf off
  { sharedRootMargin := m, observers := st.observers ++ [(e.id, m)] }

/-! ### Structure of one polling pass -/

/-- Processing indices `i, i-1, …, 0` of the working collection evaluates
exactly the first `i+1` entries, in back-to-front order, removes from them
exactly the entries that satisfy `isInViewport`, and invokes `animateIn` on
exactly those removed entries. -/
theorem pollPassAux_spec (H : Int) :
    ∀ (i : Nat) (arr : List PollElem), i < arr.length →
    pollPassAux H i arr =
      ⟨(arr.take (i + 1)).filter (fun e => !isInViewport H e) ++ arr.drop (i + 1),
        (arr.take (i + 1)).reverse,
        ((arr.take (i + 1)).filter (fun e => isInViewport H e)).reverse⟩ := by
  intro i
  induction i with
  | zero =>
    intro arr h
    match arr with
    | a :: as =>
      by_cases hp : isInViewport H a
      · simp [pollPassAux, hp, List.eraseIdx, List.filter_cons]
      · simp [pollPassAux, hp, List.filter_cons]
  | succ j ih =>
    intro arr h
    have hget : arr[j + 1]? = some arr[j + 1] := List.getElem?_eq_getElem h
    have htklen : (arr.take (j + 1)).length = j + 1 := by
      simp [List.length_take]; omega
    have htksucc : arr.take (j + 2) = arr.take (j + 1) ++ [arr[j + 1]] :=
      (List.take_concat_get' arr (j + 1) h).symm
    by_cases hp : isInViewport H arr[j + 1]
    · have herase : arr.eraseIdx (j + 1) = arr.take (j + 1) ++ arr.drop (j + 2) :=
        List.eraseIdx_eq_take_drop_succ arr (j + 1)
      have hlen' : j < (arr.eraseIdx (j + 1)).length := by
        rw [herase]; simp [List.length_drop]; omega
      have htk' : (arr.eraseIdx (j + 1)).take (j + 1) = arr.take (j + 1) := by
        rw [herase, List.take_left' htklen]
      have hdr' : (arr.eraseIdx (j + 1)).drop (j + 1) = arr.drop (j + 2) := by
        rw [herase, List.drop_left' htklen]
      rw [pollPassAux, hget]
      simp only [if_pos hp]
      rw [ih _ hlen']
      simp only [htk', hdr', htksucc, List.filter_append, List.filter_cons,
        List.reverse_append]
      simp [hp]
    · have hlen' : j < arr.length := by omega
      rw [pollPassAux, hget]
      simp only [if_neg hp]
      rw [ih _ hlen']
      simp only [htksucc, List.filter_append, List.filter_cons,
        List.reverse_append]
      have hpf : isInViewport H arr[j + 1] = false := by
        cases hx : isInViewport H arr[j + 1] <;> simp_all
      simp [hpf]

/-- One full `init` pass over any working collection evaluates every entry
exactly once (in back-to-front order), removes exactly the entries that are
in the viewport, and invokes `animateIn` on exactly those entries. -/
theorem pollPass_spec (H : Int) (arr : List PollElem) :
    pollPass H arr =
      ⟨arr.filter (fun e => !isInViewport H e), arr.reverse,
        (arr.filter (fun e => isInViewport H e)).reverse⟩ := by
  match arr with
  | [] => rfl
  | a :: as =>
    have hlen : (a :: as).length - 1 < (a :: as).length := by simp
    have h1 : (a :: as).length - 1 + 1 = (a :: as).length := by simp
    have := pollPassAux_spec H ((a :: as).length - 1) (a :: as) hlen
    rw [pollPass, this, h1]
    simp

/-- One `addedNodes` entry that is an element node yields exactly the
eligible, not-yet-animated nodes of its subtree (itself included), in
document order. -/
theorem processAddedNode_eq_subtree_filter (n : DNode) (hel : n.isElement = true) :
    processAddedNode n = n.subtree.filter jmatches := by
  match n with
  | .node i el eg an cs =>
    have hel' : el = true := hel
    subst hel'
    by_cases hm : jmatches (.node i true eg an cs)
    · simp [processAddedNode, DNode.subtree, DNode.descendants, DNode.isElement,
        List.filter_cons, hm]
    · simp [processAddedNode, DNode.subtree, DNode.descendants, DNode.isElement,
        List.filter_cons, hm]

/-! ## Claims -/

/-- Claim C1, counterexample: with the Engine constructed with `offset: 50`
on an orientation-capable runtime, a tracked element carrying the explicit
per-element override `data-jazzy-scroll-offset="30"` resolves to offset 30,
not 0 — the mobile override zeroes only the engine-level offset, and the
element-level attribute still wins. -/
theorem C1_counterexample :
    resolveOffset (mkJazzyScroll ⟨none, none, some 50⟩ true).offset (some "30") = some 30 ∧
    ¬ resolveOffset (mkJazzyScroll ⟨none, none, some 50⟩ true).offset (some "30") = some 0 := by
  decide

/-- Claim C1, amended: on an orientation-capable runtime the engine-level
offset is forced to 0 whatever the settings supplied, so every tracked
element WITHOUT its own offset override attribute (absent or empty) resolves
to an effective offset of 0; elements with their own explicit override keep
the override. -/
theorem C1_amended_mobile_offset (s : Settings) (a : Option String)
    (h : a = none ∨ a = some "") :
    (mkJazzyScroll s true).offset = 0 ∧
    resolveOffset (mkJazzyScroll s true).offset a = some 0 := by
  have hoff : (mkJazzyScroll s true).offset = 0 := rfl
  refine ⟨hoff, ?_⟩
  rcases h with h | h <;> subst h <;> simp [resolveOffset, hoff]

/-- Witness for `C1_amended_mobile_offset` at settings `offset: 50` and an
element with no offset attribute. -/
theorem C1_amended_mobile_offset_witness :
    ((none : Option String) = none ∨ (none : Option String) = some "") ∧
    ((mkJazzyScroll ⟨none, none, some 50⟩ true).offset = 0 ∧
      resolveOffset (mkJazzyScroll ⟨none, none, some 50⟩ true).offset none = some 0) :=
  ⟨Or.inl rfl, C1_amended_mobile_offset ⟨none, none, some 50⟩ none (Or.inl rfl)⟩

/-- Claim C2, counterexample: one element is already tracked (collection
`[e]`, not yet activated); the DOM then mutates by re-inserting that very
node (still eligible, still without the `animated-in` class), so the
mutation watcher registers it a second time through `addElement`; the next
polling pass with the element in the viewport invokes `animateIn` on it
twice — the activation routine is not at-most-once under DOM mutation. -/
theorem C2_counterexample :
    (pollPass 100 (registerAdded (fun _ => ⟨0, 0, 0⟩)
        [[.node 0 true true false []]] [⟨0, 0, 0⟩])).activated.count ⟨0, 0, 0⟩ = 2 ∧
    ¬ (pollPass 100 (registerAdded (fun _ => ⟨0, 0, 0⟩)
        [[.node 0 true true false []]] [⟨0, 0, 0⟩])).activated.count ⟨0, 0, 0⟩ ≤ 1 := by
  decide

/-- Claim C2, amended: as long as the working collection holds no duplicate
entry for an element (each element registered once), one polling pass
invokes `animateIn` on it at most once, and an activated element is removed
from the collection, so later passes never re-evaluate it. -/
theorem C2_amended_once_per_registration (H : Int) (arr : List PollElem)
    (hnd : arr.Nodup) (e : PollElem) :
    (pollPass H arr).activated.count e ≤ 1 ∧
    (e ∈ (pollPass H arr).activated → e ∉ (pollPass H arr).remaining) := by
  rw [pollPass_spec]
  constructor
  · calc ((arr.filter (fun x => isInViewport H x)).reverse).count e
        = (arr.filter (fun x => isInViewport H x)).count e := List.count_reverse ..
    _ ≤ arr.count e := List.Sublist.count_le (List.filter_sublist arr) e
    _ ≤ 1 := List.nodup_iff_count_le_one.mp hnd e
  · intro hmem hmem'
    rw [List.mem_reverse, List.mem_filter] at hmem
    rw [List.mem_filter] at hmem'
    rw [hmem.2] at hmem'
    simp at hmem'

/-- Witness for `C2_amended_once_per_registration` on a duplicate-free
two-element collection. -/
theorem C2_amended_once_per_registration_witness :
    ([⟨0, 0, 0⟩, ⟨1, 200, 0⟩] : List PollElem).Nodup ∧
    ((pollPass 100 [⟨0, 0, 0⟩, ⟨1, 200, 0⟩]).activated.count ⟨0, 0, 0⟩ ≤ 1 ∧
      (⟨0, 0, 0⟩ ∈ (pollPass 100 [⟨0, 0, 0⟩, ⟨1, 200, 0⟩]).activated →
        ⟨0, 0, 0⟩ ∉ (pollPass 100 [⟨0, 0, 0⟩, ⟨1, 200, 0⟩]).remaining)) :=
  ⟨by decide, C2_amended_once_per_registration 100 _ (by decide) _⟩

/-- Claim C3, counterexample: a counting element carrying the per-element
speed override `data-jazzy-scroll-speed="1000"` under an engine whose
default speed is 500 has resolved transition speed 1000, yet `animateIn`
invokes the numeric ramp with duration 500 (the engine default), not 1000 —
the per-element speed override is ignored by the ramp call. -/
theorem C3_counterexample :
    (animateIn 500 ⟨"jazzy-count", some "0", some "10", some "1000", none, ""⟩).1
        = some ⟨0, 10, 500⟩ ∧
    resolvedSpeedSpec 500 ⟨"jazzy-count", some "0", some "10", some "1000", none, ""⟩
        = 1000 ∧
    jazzySpeedStr 500 ⟨"jazzy-count", some "0", some "10", some "1000", none, ""⟩
        = "1000ms" ∧
    ¬ (animateIn 500 ⟨"jazzy-count", some "0", some "10", some "1000", none, ""⟩).1
        = some ⟨0, 10, 1000⟩ := by
  decide

/-- Claim C3, amended: whenever `animateIn` invokes the Numeric Ramp
Animator, the duration it passes is the engine-level speed (`this.speed`),
regardless of any element-level speed override. -/
theorem C3_amended_engine_speed (sp : Int) (e : JAttrs) (rc : RampCall) (b : Bool)
    (h : animateIn sp e = (some rc, b)) : rc.duration = sp := by
  unfold animateIn at h
  by_cases hc : strIncludes e.jazzyScroll "count"
  · rw [if_pos hc] at h
    cases hs : parseIntJS (orDefaultStr e.countStart "0") <;>
      cases he : parseIntJS (orDefaultStr e.countEnd e.textContent) <;>
      rw [hs, he] at h <;> simp at h
    rw [← h.1]
  · rw [if_neg hc] at h
    simp at h

/-- Witness for `C3_amended_engine_speed` on the spec's `jazzy-count`
element with text `42` and engine speed 500. -/
theorem C3_amended_engine_speed_witness :
    animateIn 500 ⟨"jazzy-count", none, none, none, none, "42"⟩
        = (some ⟨0, 42, 500⟩, true) ∧
    (⟨0, 42, 500⟩ : RampCall).duration = 500 :=
  ⟨by decide,
    C3_amended_engine_speed 500 ⟨"jazzy-count", none, none, none, none, "42"⟩
      ⟨0, 42, 500⟩ true (by decide)⟩

/-- Claim C4: for a ramp with integer `start` and `end` and positive
duration, the displayed text at elapsed 0 is `start`; on any terminal frame
(elapsed at or past the duration, progress clamped to 1) it is exactly
`end`; the displayed value is monotonically non-decreasing in elapsed time
when `end ≥ start` and non-increasing when `end < start` (and is an integer
by construction, being a floor); and a further frame is scheduled exactly
while the elapsed time is below the duration, i.e. while progress `< 1`. -/
theorem C4_ramp_frame_properties (start endv : Int) (d : ℚ) (hd : 0 < d) :
    rampValue start endv d 0 = start ∧
    (∀ e, d ≤ e → rampValue start endv d e = endv) ∧
    (∀ e1 e2, e1 ≤ e2 → start ≤ endv →
      rampValue start endv d e1 ≤ rampValue start endv d e2) ∧
    (∀ e1 e2, e1 ≤ e2 → endv < start →
      rampValue start endv d e2 ≤ rampValue start endv d e1) ∧
    (∀ e, schedulesNext d e = true ↔ e < d) := by
  have hprogmono : ∀ e1 e2 : ℚ, e1 ≤ e2 →
      progressAt d e1 ≤ progressAt d e2 := by
    intro e1 e2 h
    exact min_le_min ((div_le_div_iff_of_pos_right hd).mpr h) le_rfl
  refine ⟨?_, ?_, ?_, ?_, ?_⟩
  · have h0 : progressAt d 0 = 0 := by
      simp [progressAt, zero_div]
    rw [rampValue, h0]
    simp
  · intro e he
    have h1 : progressAt d e = 1 := by
      rw [progressAt, min_eq_right]
      exact (one_le_div hd).mpr he
    rw [rampValue, h1]
    rw [one_mul, sub_add_cancel, Int.floor_intCast]
  · intro e1 e2 h hse
    apply Int.floor_le_floor
    have hk : (0 : ℚ) ≤ (endv : ℚ) - (start : ℚ) := by
      rw [sub_nonneg]
      exact_mod_cast hse
    exact add_le_add_right (mul_le_mul_of_nonneg_right (hprogmono e1 e2 h) hk) _
  · intro e1 e2 h hes
    apply Int.floor_le_floor
    have hk : (endv : ℚ) - (start : ℚ) ≤ 0 := by
      rw [sub_nonpos]
      exact_mod_cast le_of_lt hes
    exact add_le_add_right (mul_le_mul_of_nonpos_right (hprogmono e1 e2 h) hk) _
  · intro e
    rw [schedulesNext, decide_eq_true_eq, progressAt]
    constructor
    · intro hlt
      rcases min_lt_iff.mp hlt with hlt | hlt
      · exact (div_lt_one hd).mp hlt
      · exact absurd hlt (lt_irrefl 1)
    · intro hlt
      exact min_lt_iff.mpr (Or.inl ((div_lt_one hd).mpr hlt))

/-- Witness for `C4_ramp_frame_properties` on the spec's example ramp
0 → 100 over 800 ms. -/
theorem C4_ramp_frame_properties_witness :
    (0 : ℚ) < 800 ∧
    rampValue 0 100 800 0 = 0 ∧
    rampValue 0 100 800 800 = 100 ∧
    rampValue 0 100 800 400 ≤ rampValue 0 100 800 600 ∧
    (schedulesNext 800 400 = true ↔ (400 : ℚ) < 800) :=
  ⟨by norm_num,
    (C4_ramp_frame_properties 0 100 800 (by norm_num)).1,
    (C4_ramp_frame_properties 0 100 800 (by norm_num)).2.1 800 (by norm_num),
    (C4_ramp_frame_properties 0 100 800 (by norm_num)).2.2.1 400 600 (by norm_num)
      (by norm_num),
    (C4_ramp_frame_properties 0 100 800 (by norm_num)).2.2.2.2 400⟩

/-- Claim C5: a present-but-falsy configuration value — `speed: 0` (and
likewise `delay: 0`, `offset: 0`) — is indistinguishable from an unset field
in the default-merge: the constructed engine state equals the one built from
an empty configuration, with effective speed 500, delay 0, offset 0. -/
theorem C5_falsy_zero_defaults : ∀ ho : Bool,
    mkJazzyScroll ⟨some 0, some 0, some 0⟩ ho = mkJazzyScroll ⟨none, none, none⟩ ho ∧
    (mkJazzyScroll ⟨some 0, some 0, some 0⟩ ho).speed = 500 ∧
    (mkJazzyScroll ⟨some 0, some 0, some 0⟩ ho).delay = 0 ∧
    (mkJazzyScroll ⟨some 0, some 0, some 0⟩ ho).offset = 0 := by
  intro ho
  cases ho <;> exact ⟨rfl, rfl, rfl, rfl⟩

/-- Claim C6: under the polling strategy the trigger boundary is inclusive —
an element whose bounding-box top equals `H - offset` satisfies the
in-viewport test (`elementTop + offset <= viewportBottom` is true), so the
evaluation pass activates it. -/
theorem C6_inclusive_boundary (H : Int) (e : PollElem) (arr : List PollElem)
    (htop : e.rectTop = H - e.jazzyOffset) (hmem : e ∈ arr) :
    isInViewport H e = true ∧ e ∈ (pollPass H arr).activated := by
  have hin : isInViewport H e = true := by
    simp only [isInViewport, htop, decide_eq_true_eq]
    omega
  refine ⟨hin, ?_⟩
  rw [pollPass_spec]
  rw [List.mem_reverse, List.mem_filter]
  exact ⟨hmem, hin⟩

/-- Witness for `C6_inclusive_boundary` with viewport height 100 and an
element at top 80 with offset 20. -/
theorem C6_inclusive_boundary_witness :
    (⟨0, 80, 20⟩ : PollElem).rectTop = 100 - (⟨0, 80, 20⟩ : PollElem).jazzyOffset ∧
    (⟨0, 80, 20⟩ : PollElem) ∈ ([⟨0, 80, 20⟩] : List PollElem) ∧
    (isInViewport 100 ⟨0, 80, 20⟩ = true ∧
      (⟨0, 80, 20⟩ : PollElem) ∈ (pollPass 100 [⟨0, 80, 20⟩]).activated) :=
  ⟨by decide, by decide,
    C6_inclusive_boundary 100 ⟨0, 80, 20⟩ [⟨0, 80, 20⟩] (by decide) (by decide)⟩

/-- Claim C7: for a counting element whose start or end attribute fails to
parse as an integer (`NaN`), `animateIn` records no ramp call (the numeric
ramp is silently skipped) while the `animated-in` completion marker class is
still added; the function returns normally, raising no error. -/
theorem C7_nan_skips_ramp (sp : Int) (e : JAttrs)
    (hc : strIncludes e.jazzyScroll "count" = true)
    (hbad : parseIntJS (orDefaultStr e.countStart "0") = none ∨
      parseIntJS (orDefaultStr e.countEnd e.textContent) = none) :
    animateIn sp e = (none, true) := by
  unfold animateIn
  rw [if_pos hc]
  cases hs : parseIntJS (orDefaultStr e.countStart "0") <;>
    cases he : parseIntJS (orDefaultStr e.countEnd e.textContent) <;>
    simp_all

/-- Witness for `C7_nan_skips_ramp` on a counting element whose start
attribute is the non-numeric string `abc`. -/
theorem C7_nan_skips_ramp_witness :
    strIncludes "jazzy-count" "count" = true ∧
    parseIntJS (orDefaultStr (some "abc") "0") = none ∧
    animateIn 500 ⟨"jazzy-count", some "abc", none, none, none, "42"⟩ = (none, true) :=
  ⟨by decide, by decide,
    C7_nan_skips_ramp 500 ⟨"jazzy-count", some "abc", none, none, none, "42"⟩
      (by decide) (Or.inl (by decide))⟩

/-- Claim C8: a single mutation batch reporting one inserted element subtree
that contains exactly three eligible, not-yet-activated nodes (with distinct
identities, as distinct DOM nodes have) produces exactly three `addElement`
registrations — those three nodes, none registered twice. -/
theorem C8_batch_registers_three (root : DNode) (hel : root.isElement = true)
    (h3 : (root.subtree.filter jmatches).length = 3)
    (hnd : ((root.subtree.filter jmatches).map DNode.id).Nodup) :
    (processBatch [[root]]).map DNode.id = (root.subtree.filter jmatches).map DNode.id ∧
    (processBatch [[root]]).length = 3 ∧
    ((processBatch [[root]]).map DNode.id).Nodup := by
  have hpb : processBatch [[root]] = root.subtree.filter jmatches := by
    simp [processBatch, processAddedNode_eq_subtree_filter root hel]
  rw [hpb]
  exact ⟨rfl, h3, hnd⟩

/-- Witness for `C8_batch_registers_three` on a concrete inserted subtree:
an ineligible root holding eligible node 1 (which nests eligible node 2) and
eligible node 3. -/
theorem C8_batch_registers_three_witness :
    (DNode.node 0 true false false
        [.node 1 true true false [.node 2 true true false []],
          .node 3 true true false []]).isElement = true ∧
    (((DNode.node 0 true false false
        [.node 1 true true false [.node 2 true true false []],
          .node 3 true true false []]).subtree.filter jmatches).length = 3) ∧
    ((((DNode.node 0 true false false
        [.node 1 true true false [.node 2 true true false []],
          .node 3 true true false []]).subtree.filter jmatches).map DNode.id).Nodup) ∧
    ((processBatch [[DNode.node 0 true false false
        [.node 1 true true false [.node 2 true true false []],
          .node 3 true true false []]]]).map DNode.id = [1, 2, 3]) ∧
    ((processBatch [[DNode.node 0 true false false
        [.node 1 true true false [.node 2 true true false []],
          .node 3 true true false []]]]).length = 3 ∧
      ((processBatch [[DNode.node 0 true false false
          [.node 1 true true false [.node 2 true true false []],
            .node 3 true true false []]]]).map DNode.id).Nodup) :=
  ⟨rfl, by decide, by decide, by decide,
    (C8_batch_registers_three
      (.node 0 true false false
        [.node 1 true true false [.node 2 true true false []],
          .node 3 true true false []]) rfl (by decide) (by decide)).2⟩

/-- Claim C9: in each polling evaluation pass, every entry pending in the
working collection at the start of the pass is evaluated exactly once — the
backward traversal visits exactly the starting entries, in back-to-front
order, never skipping or revisiting one even though activated elements are
spliced out mid-pass; the collection afterwards holds exactly the entries
that were not in the viewport. -/
theorem C9_pass_evaluates_each_once (H : Int) (arr : List PollElem) :
    (pollPass H arr).evaluated = arr.reverse ∧
    (∀ e, (pollPass H arr).evaluated.count e = arr.count e) ∧
    (pollPass H arr).remaining = arr.filter (fun e => !isInViewport H e) := by
  rw [pollPass_spec]
  exact ⟨rfl, fun e => List.count_reverse .., rfl⟩

/-- Claim C10: the observer-strategy `addElement` assigns the single shared
engine options object to every element by reference and rewrites its
`rootMargin` in place; after adding element A and then element B, the shared
object (hence the stored options of both A and B, which alias it) carries
the margin derived from B's resolved offset — accurate only for the most
recently added element — while each element's `IntersectionObserver` keeps
the margin captured at its own construction: A's observer holds A's margin,
B's holds B's. -/
theorem C10_shared_options_aliasing (engineOffset : Int) (st : ObsState)
    (A B : ObsElem) :
    (addElementObs engineOffset (addElementObs engineOffset st A) B).sharedRootMargin
        = rootMarginOf (resolveOffset engineOffset B.offsetAttr) ∧
    (addElementObs engineOffset st A).sharedRootMargin
        = rootMarginOf (resolveOffset engineOffset A.offsetAttr) ∧
    (addElementObs engineOffset (addElementObs engineOffset st A) B).observers
        = st.observers ++
          [(A.id, rootMarginOf (resolveOffset engineOffset A.offsetAttr)),
            (B.id, rootMarginOf (resolveOffset engineOffset B.offsetAttr))] := by
  refine ⟨rfl, rfl, ?_⟩
  simp [addElementObs]

end Jazzy
